import Mathlib

/-!
Shallow embedding of the dynamic query construction subsystem of the Jobly
data-access layer (src/models/job.js: class `Job` and class `Company`):
the filter-query composition performed by `Job.findAll` and
`Company.findAll`, and the UPDATE-statement assembly performed by
`Job.update` and `Company.update` on top of the partial-update builder
`sqlForPartialUpdate`.

Pure string/array construction is embedded directly; the database round
trip is out of scope.  `db.query(statement, values)` calls are represented
by returning the statement/value pair that would be passed to them.
-/

set_option maxRecDepth 8000

/-- A value bound to a positional SQL parameter (`queryValues` / `values`
elements in the JS source are strings or numbers here). -/
inductive Value where
  | str (s : String)
  | int (n : Int)
  deriving DecidableEq

/-- A JavaScript runtime value, as far as the `hasEquity === true` test in
`Job.findAll` can observe it: `undefined`, a boolean, a string or a number. -/
inductive JSVal where
  | undef
  | boolean (b : Bool)
  | string (s : String)
  | number (n : Int)
  deriving DecidableEq

instance {ε α : Type} [DecidableEq ε] [DecidableEq α] : DecidableEq (Except ε α) := fun a b =>
  match a, b with
  | Except.error x, Except.error y =>
    if h : x = y then Decidable.isTrue (by rw [h])
    else Decidable.isFalse (by intro hh; cases hh; exact h rfl)
  | Except.error _, Except.ok _ => Decidable.isFalse (by intro hh; cases hh)
  | Except.ok _, Except.error _ => Decidable.isFalse (by intro hh; cases hh)
  | Except.ok x, Except.ok y =>
    if h : x = y then Decidable.isTrue (by rw [h])
    else Decidable.isFalse (by intro hh; cases hh; exact h rfl)

/-- Result of composing a filtered selection: the statement text together
with the ordered list of bound values, as handed to `db.query`. -/
structure ComposedQuery where
  statement : String
  values : List Value
  deriving DecidableEq

/-- JavaScript `Array.prototype.join(sep)` on a list of strings. -/
def joinSep (sep : String) : List String → String
  | [] => ""
  | [s] => s
  | s :: t :: rest => s ++ sep ++ joinSep sep (t :: rest)

/-- The destructured parameter `{ minSalary, hasEquity, title }` of
`Job.findAll` (job.js line 46).  `title` and `minSalary` are either
`undefined` or a string / number; `hasEquity` is an arbitrary JS value
because the code compares it with `=== true`. -/
structure JobFilters where
  minSalary : Option Int
  hasEquity : JSVal
  title : Option String
  deriving DecidableEq

/-- The base SELECT of `Job.findAll` (job.js lines 47-54). -/
def jobBaseQuery : String :=
  "SELECT j.id,
                        j.title,
                        j.salary,
                        j.equity,
                        j.company_handle AS \"companyHandle\",
                        c.name AS \"companyName\"
                    FROM jobs j
                    LEFT JOIN companies AS c ON c.handle = j.company_handle"

namespace Job

/-- Lines 55-75 of job.js (`Job.findAll`): the accumulation of
`whereExpressions` and `queryValues`.  The JS pushes the value first and
then uses the new `queryValues.length` as the placeholder number, which
equals `queryValues.length + 1` on the list before the push. -/
def whereParts (f : JobFilters) : List String × List Value :=
  let whereExpressions : List String := []
  let queryValues : List Value := []
  let (whereExpressions, queryValues) :=
    match f.title with
    | some title =>
      (whereExpressions ++ ["title ILIKE $" ++ Nat.repr (queryValues.length + 1)],
       queryValues ++ [Value.str ("%" ++ title ++ "%")])
    | none => (whereExpressions, queryValues)
  let (whereExpressions, queryValues) :=
    match f.minSalary with
    | some minSalary =>
      (whereExpressions ++ ["salary >= $" ++ Nat.repr (queryValues.length + 1)],
       queryValues ++ [Value.int minSalary])
    | none => (whereExpressions, queryValues)
  let (whereExpressions, queryValues) :=
    if f.hasEquity = JSVal.boolean true then
      (whereExpressions ++ ["equity > 0"], queryValues)
    else (whereExpressions, queryValues)
  (whereExpressions, queryValues)

/-- `Job.findAll` up to the `db.query` call (job.js lines 46-80): the
statement string and value list passed to the database. -/
def findAll (f : JobFilters) : ComposedQuery :=
  let (whereExpressions, queryValues) := whereParts f
  let baseQuery :=
    if whereExpressions.length > 0 then
      jobBaseQuery ++ " WHERE " ++ joinSep " AND " whereExpressions
    else jobBaseQuery
  ⟨baseQuery ++ " ORDER BY title", queryValues⟩

end Job

/-- The `searchFilters` parameter of `Company.findAll` (job.js line 229,
destructured at line 240 into `name`, `minEmployees`, `maxEmployees`). -/
structure CompanyFilters where
  name : Option String
  minEmployees : Option Int
  maxEmployees : Option Int
  deriving DecidableEq

/-- The base SELECT of `Company.findAll` (job.js lines 230-235). -/
def companyBaseQuery : String :=
  "SELECT handle,
                  name,
                  description,
                  num_employees AS \"numEmployees\",
                  logo_url AS \"logoUrl\"
           FROM companies"

/-- JavaScript truthiness of the `name` filter (`if (name)` at job.js line
243): `undefined` and the empty string are falsy, every other string is
truthy. -/
def jsTruthyStr : Option String → Bool
  | some s => s != ""
  | none => false

/-- JavaScript `>` on possibly-`undefined` numbers (job.js line 249):
any comparison involving `undefined` evaluates to `false`. -/
def jsGt : Option Int → Option Int → Bool
  | some a, some b => decide (a > b)
  | some _, none => false
  | none, some _ => false
  | none, none => false

/-- The `BadRequestError` thrown by `Company.findAll` (job.js line 250).
Besides the human-readable message, the embedding records the values of
the local variables `whereExpressions` and `queryValues` at the moment of
the throw, so that claims about how much had been accumulated when the
error was raised are statable. -/
structure BadRequest where
  message : String
  whereAtThrow : List String
  valuesAtThrow : List Value
  deriving DecidableEq

/-- The message of the `BadRequestError` at job.js line 250. -/
def companyMinMaxMsg : String :=
  "Minimum employees cannot be exceed maximum number of employees."

namespace Company

/-- Lines 237-261 of job.js (`Company.findAll`): the accumulation of
`whereExpressions` and `queryValues`, including the min/max validation
that sits between the `name` predicate and the numeric predicates. -/
def whereParts (f : CompanyFilters) : Except BadRequest (List String × List Value) :=
  let whereExpressions : List String := []
  let queryValues : List Value := []
  let (whereExpressions, queryValues) :=
    if jsTruthyStr f.name then
      (whereExpressions ++ ["name ILIKE $" ++ Nat.repr (queryValues.length + 1)],
       queryValues ++ [Value.str ("%" ++ f.name.getD "" ++ "%")])
    else (whereExpressions, queryValues)
  if jsGt f.minEmployees f.maxEmployees then
    Except.error ⟨companyMinMaxMsg, whereExpressions, queryValues⟩
  else
    let (whereExpressions, queryValues) :=
      match f.minEmployees with
      | some minEmployees =>
        (whereExpressions ++ ["num_employees >= $" ++ Nat.repr (queryValues.length + 1)],
         queryValues ++ [Value.int minEmployees])
      | none => (whereExpressions, queryValues)
    let (whereExpressions, queryValues) :=
      match f.maxEmployees with
      | some maxEmployees =>
        (whereExpressions ++ ["num_employees <= $" ++ Nat.repr (queryValues.length + 1)],
         queryValues ++ [Value.int maxEmployees])
      | none => (whereExpressions, queryValues)
    Except.ok (whereExpressions, queryValues)

/-- `Company.findAll` up to the `db.query` call (job.js lines 229-270). -/
def findAll (f : CompanyFilters) : Except BadRequest ComposedQuery :=
  match whereParts f with
  | Except.error e => Except.error e
  | Except.ok (whereExpressions, queryValues) =>
    let baseQuery :=
      if whereExpressions.length > 0 then
        companyBaseQuery ++ " WHERE " ++ joinSep " AND " whereExpressions
      else companyBaseQuery
    Except.ok ⟨baseQuery ++ " ORDER BY name", queryValues⟩

end Company

/-- The error thrown by the partial-update builder on an empty mapping. -/
inductive SqlError where
  | invalidArgument (msg : String)
  deriving DecidableEq

/-- Column-name resolution of the builder: look the key up in the alias map
`jsToSql` and fall back to the key itself. -/
def resolveCol (jsToSql : List (String × String)) (k : String) : String :=
  (jsToSql.lookup k).getD k

/-- The SET-clause fragments of the builder: one fragment
`<column> = $<position>` per update key, positions 1-based in iteration
order; `i` is the number of keys already consumed. -/
def setFragments (jsToSql : List (String × String)) : Nat → List (String × Value) → List String
  | _, [] => []
  | i, kv :: rest =>
    (resolveCol jsToSql kv.1 ++ " = $" ++ Nat.repr (i + 1)) :: setFragments jsToSql (i + 1) rest

/-- The builder's output: the joined SET clause and the ordered bound values. -/
structure SetClause where
  setCols : String
  values : List Value
  deriving DecidableEq

/-- Modelled from the spec: `sqlForPartialUpdate` lives in `helpers/sql.js`,
which is not among the given sources (only its callers `Job.update` and
`Company.update` are).  Spec §4.1: a non-empty mapping is required,
otherwise the call fails with an `InvalidArgument` error ("no data") before
any SQL is assembled; for each key, in iteration order, the column name is
resolved through the alias map (falling back to the key itself) and a
fragment `<column> = $<position>` is emitted with the 1-based position;
the fragments are joined with `", "` and the values are returned in the
same order.  An update mapping is represented as an ordered association
list, matching JS object insertion order. -/
def sqlForPartialUpdate (data : List (String × Value)) (jsToSql : List (String × String)) :
    Except SqlError SetClause :=
  if data.length = 0 then Except.error (SqlError.invalidArgument "no data")
  else Except.ok ⟨joinSep ", " (setFragments jsToSql 0 data), data.map (fun kv => kv.2)⟩

/-- The data handed to `db.query` by an update routine, together with the
intermediate local variables of the JS code (`setCols`, `values`, the
WHERE-identifier placeholder `idVarIdx`/`handleVarIdx`). -/
structure UpdateQuery where
  setCols : String
  values : List Value
  idVarIdx : String
  querySql : String
  params : List Value
  deriving DecidableEq

/-- The fixed part of `Job.update`'s statement before `setCols`
(job.js lines 136-137). -/
def jobUpdatePrefix : String :=
  "UPDATE jobs
                      SET "

/-- The fixed part of `Job.update`'s statement between `setCols` and the id
placeholder (job.js line 138). -/
def jobUpdateMid : String :=
  "
                      WHERE id = "

/-- The fixed part of `Job.update`'s statement after the id placeholder
(job.js lines 139-143). -/
def jobUpdateSuffix : String :=
  "
                      RETURNING id,
                                title,
                                salary,
                                equity,
                                company_handle AS \"companyHandle\""

namespace Job

/-- `Job.update` up to the `db.query` call (job.js lines 132-144): builds
the SET clause with an empty alias map, numbers the WHERE id placeholder
`values.length + 1`, and appends `id` as the last query parameter. -/
def update (id : Int) (data : List (String × Value)) : Except SqlError UpdateQuery :=
  match sqlForPartialUpdate data [] with
  | Except.error e => Except.error e
  | Except.ok sc =>
    let idVarIdx := "$" ++ Nat.repr (sc.values.length + 1)
    Except.ok ⟨sc.setCols, sc.values, idVarIdx,
      jobUpdatePrefix ++ sc.setCols ++ jobUpdateMid ++ idVarIdx ++ jobUpdateSuffix,
      sc.values ++ [Value.int id]⟩

end Job

/-- The alias map passed by `Company.update` (job.js lines 315-318). -/
def companyAliases : List (String × String) :=
  [("numEmployees", "num_employees"), ("logoUrl", "logo_url")]

/-- The fixed part of `Company.update`'s statement before `setCols`
(job.js lines 321-322). -/
def companyUpdatePrefix : String :=
  "UPDATE companies
                      SET "

/-- The fixed part of `Company.update`'s statement between `setCols` and
the handle placeholder (job.js line 323). -/
def companyUpdateMid : String :=
  "
                      WHERE handle = "

/-- The fixed part of `Company.update`'s statement after the handle
placeholder (job.js lines 324-328). -/
def companyUpdateSuffix : String :=
  "
                      RETURNING handle,
                                name,
                                description,
                                num_employees AS \"numEmployees\",
                                logo_url AS \"logoUrl\""

namespace Company

/-- `Company.update` up to the `db.query` call (job.js lines 312-329). -/
def update (handle : String) (data : List (String × Value)) : Except SqlError UpdateQuery :=
  match sqlForPartialUpdate data companyAliases with
  | Except.error e => Except.error e
  | Except.ok sc =>
    let handleVarIdx := "$" ++ Nat.repr (sc.values.length + 1)
    Except.ok ⟨sc.setCols, sc.values, handleVarIdx,
      companyUpdatePrefix ++ sc.setCols ++ companyUpdateMid ++ handleVarIdx ++ companyUpdateSuffix,
      sc.values ++ [Value.str handle]⟩

end Company

/-- Scanner for positional placeholders: walks the character list; after a
`$` it accumulates the following decimal digits (state `some acc`) and
emits the completed number when they end.  `phScan l none` is the list of
placeholder numbers occurring in `l`, in textual order. -/
def phScan : List Char → Option Nat → List Nat
  | [], none => []
  | [], some acc => [acc]
  | c :: rest, none =>
    if c = '$' then phScan rest (some 0) else phScan rest none
  | c :: rest, some acc =>
    if c.isDigit then phScan rest (some (acc * 10 + (c.toNat - 48)))
    else if c = '$' then acc :: phScan rest (some 0)
    else acc :: phScan rest none

/-- The positional placeholder numbers occurring in a statement string, in
textual order. -/
def placeholderNums (s : String) : List Nat :=
  phScan s.data none

/-- Number of `$` characters in a string; every placeholder contributes
exactly one. -/
def dollarCount (s : String) : Nat :=
  s.data.count '$'

/-- Boolean test that a list of numbers is strictly increasing. -/
def strictlyIncreasing : List Nat → Bool
  | [] => true
  | [_] => true
  | a :: b :: rest => decide (a < b) && strictlyIncreasing (b :: rest)

/-- Does the pattern occur at the head of the character list? -/
def startsWithL : List Char → List Char → Bool
  | [], _ => true
  | _ :: _, [] => false
  | p :: ps, c :: cs => p == c && startsWithL ps cs

/-- Does the pattern occur anywhere inside the character list? -/
def hasInfixL (pat : List Char) : List Char → Bool
  | [] => startsWithL pat []
  | c :: rest => startsWithL pat (c :: rest) || hasInfixL pat rest

/-- The storage column names mentioned by the builder's SET clause, in
order: one per update key, resolved through the alias map. -/
def setColumns (jsToSql : List (String × String)) (data : List (String × Value)) : List String :=
  data.map fun kv => resolveCol jsToSql kv.1

/-- Modelled from the spec: the row-level meaning of executing the UPDATE
statement's SET clause, needed because statement execution is outside the
core (spec §2, §6) and the glossary defines a partial update as "a mutation
that changes only the fields explicitly supplied, leaving all others
untouched".  Each SET assignment writes its bound value to its column;
every column without an assignment keeps the row's previous value. -/
def applyAssignments (row : String → Value) (assigns : List (String × Value)) (c : String) : Value :=
  match assigns.lookup c with
  | some v => v
  | none => row c

theorem phScan_length (l : List Char) :
    ∀ st : Option Nat, (phScan l st).length = l.count '$' + (if st.isSome then 1 else 0) := by
  induction l with
  | nil => intro st; cases st <;> simp [phScan]
  | cons c rest ih =>
    intro st
    cases st with
    | none =>
      by_cases hc : c = '$' <;>
        simp [phScan, hc, ih, List.count_cons]
    | some a =>
      by_cases hd : c.isDigit
      · have hc : c ≠ '$' := by intro h; subst h; exact absurd hd (by decide)
        simp [phScan, hd, hc, ih, List.count_cons]
      · by_cases hc : c = '$' <;>
          simp [phScan, hd, hc, ih, List.count_cons]

theorem placeholderNums_length (s : String) :
    (placeholderNums s).length = dollarCount s := by
  simpa using phScan_length s.data none

theorem dollarCount_append (a b : String) :
    dollarCount (a ++ b) = dollarCount a + dollarCount b := by
  simp [dollarCount, String.data_append, List.count_append]

theorem dollarCount_joinSep (sep : String) (hsep : dollarCount sep = 0) :
    ∀ l : List String, (∀ s ∈ l, dollarCount s = 1) → dollarCount (joinSep sep l) = l.length := by
  intro l
  induction l with
  | nil => intro _; rfl
  | cons s rest ih =>
    intro h
    cases rest with
    | nil => simpa [joinSep] using h s (by simp)
    | cons t rest2 =>
      have h1 : dollarCount s = 1 := h s (by simp)
      have h2 : dollarCount (joinSep sep (t :: rest2)) = (t :: rest2).length :=
        ih (fun x hx => h x (by simp [hx]))
      calc dollarCount (joinSep sep (s :: t :: rest2))
          = dollarCount s + dollarCount sep + dollarCount (joinSep sep (t :: rest2)) := by
            simp [joinSep, dollarCount_append]
        _ = 1 + 0 + (t :: rest2).length := by rw [h1, hsep, h2]
        _ = (s :: t :: rest2).length := by simp only [List.length_cons]; omega

theorem digitChar_ne_dollar : ∀ m : Nat, Nat.digitChar m ≠ '$'
  | 0 => by decide
  | 1 => by decide
  | 2 => by decide
  | 3 => by decide
  | 4 => by decide
  | 5 => by decide
  | 6 => by decide
  | 7 => by decide
  | 8 => by decide
  | 9 => by decide
  | 10 => by decide
  | 11 => by decide
  | 12 => by decide
  | 13 => by decide
  | 14 => by decide
  | 15 => by decide
  | (_ + 16) => (by decide : ('*' : Char) ≠ '$')

theorem toDigitsCore_ne_dollar :
    ∀ (fuel n : Nat) (acc : List Char), '$' ∉ acc → '$' ∉ Nat.toDigitsCore 10 fuel n acc := by
  intro fuel
  induction fuel with
  | zero => intro n acc h; simpa [Nat.toDigitsCore] using h
  | succ f ih =>
    intro n acc h
    unfold Nat.toDigitsCore
    dsimp only
    split
    · intro hmem
      rcases List.mem_cons.mp hmem with h1 | h1
      · exact digitChar_ne_dollar _ h1.symm
      · exact h h1
    · apply ih
      intro hmem
      rcases List.mem_cons.mp hmem with h1 | h1
      · exact digitChar_ne_dollar _ h1.symm
      · exact h h1

theorem repr_ne_dollar (n : Nat) : '$' ∉ (Nat.repr n).data :=
  toDigitsCore_ne_dollar (n + 1) n [] (by simp)

theorem dollarCount_repr (n : Nat) : dollarCount (Nat.repr n) = 0 := by
  simp only [dollarCount, List.count_eq_zero]
  exact repr_ne_dollar n

theorem setFragments_length (jsToSql : List (String × String)) :
    ∀ (i : Nat) (data : List (String × Value)),
      (setFragments jsToSql i data).length = data.length := by
  intro i data
  induction data generalizing i with
  | nil => rfl
  | cons kv rest ih => simp [setFragments, ih]

theorem setFragments_dollar (jsToSql : List (String × String)) :
    ∀ (i : Nat) (data : List (String × Value)),
      (∀ kv ∈ data, '$' ∉ (resolveCol jsToSql kv.1).data) →
      ∀ s ∈ setFragments jsToSql i data, dollarCount s = 1 := by
  intro i data
  induction data generalizing i with
  | nil => intro _ s hs; simp [setFragments] at hs
  | cons kv rest ih =>
    intro h s hs
    rcases List.mem_cons.mp hs with h1 | h1
    · subst h1
      have hcol : dollarCount (resolveCol jsToSql kv.1) = 0 := by
        simp only [dollarCount, List.count_eq_zero]
        exact h kv (by simp)
      rw [dollarCount_append, dollarCount_append, hcol, dollarCount_repr]
      decide
    · exact ih (i + 1) (fun x hx => h x (by simp [hx])) s h1

theorem dollarCount_setCols (jsToSql : List (String × String)) (data : List (String × Value))
    (h : ∀ kv ∈ data, '$' ∉ (resolveCol jsToSql kv.1).data) :
    dollarCount (joinSep ", " (setFragments jsToSql 0 data)) = data.length := by
  rw [dollarCount_joinSep ", " (by decide) _ (setFragments_dollar jsToSql 0 data h),
    setFragments_length]

theorem job_update_eq (id : Int) (data : List (String × Value)) (hlen : data.length ≠ 0) :
    Job.update id data = Except.ok
      ⟨joinSep ", " (setFragments [] 0 data),
       data.map (fun kv => kv.2),
       "$" ++ Nat.repr ((data.map (fun kv => kv.2)).length + 1),
       jobUpdatePrefix ++ joinSep ", " (setFragments [] 0 data) ++ jobUpdateMid ++
         ("$" ++ Nat.repr ((data.map (fun kv => kv.2)).length + 1)) ++ jobUpdateSuffix,
       data.map (fun kv => kv.2) ++ [Value.int id]⟩ := by
  simp [Job.update, sqlForPartialUpdate, hlen]

theorem company_update_eq (handle : String) (data : List (String × Value))
    (hlen : data.length ≠ 0) :
    Company.update handle data = Except.ok
      ⟨joinSep ", " (setFragments companyAliases 0 data),
       data.map (fun kv => kv.2),
       "$" ++ Nat.repr ((data.map (fun kv => kv.2)).length + 1),
       companyUpdatePrefix ++ joinSep ", " (setFragments companyAliases 0 data) ++
         companyUpdateMid ++
         ("$" ++ Nat.repr ((data.map (fun kv => kv.2)).length + 1)) ++ companyUpdateSuffix,
       data.map (fun kv => kv.2) ++ [Value.str handle]⟩ := by
  simp [Company.update, sqlForPartialUpdate, hlen]

theorem update_statement_count (jsToSql : List (String × String)) (data : List (String × Value))
    (pre mid suf : String)
    (h : ∀ kv ∈ data, '$' ∉ (resolveCol jsToSql kv.1).data)
    (hpre : dollarCount pre = 0) (hmid : dollarCount mid = 0) (hsuf : dollarCount suf = 0) :
    (placeholderNums (pre ++ joinSep ", " (setFragments jsToSql 0 data) ++ mid ++
        ("$" ++ Nat.repr ((data.map (fun kv => kv.2)).length + 1)) ++ suf)).length
      = (data.map (fun kv => kv.2)).length + 1 := by
  have hd : dollarCount "$" = 1 := by decide
  rw [placeholderNums_length, dollarCount_append, dollarCount_append, dollarCount_append,
    dollarCount_append, dollarCount_append, hpre, hmid, hsuf, hd,
    dollarCount_setCols jsToSql data h, dollarCount_repr]
  simp only [List.length_map]
  omega

/-- C3: For every empty update-field mapping, the Partial-Update Builder
(`sqlForPartialUpdate`, as invoked by `Job.update` and `Company.update`)
fails synchronously with an InvalidArgument error ("no data"), producing no
clause and no value list, before any SQL text is assembled. -/
theorem c3_empty_update_fails (jsToSql : List (String × String)) (id : Int) (handle : String) :
    sqlForPartialUpdate [] jsToSql = Except.error (SqlError.invalidArgument "no data") ∧
    Job.update id [] = Except.error (SqlError.invalidArgument "no data") ∧
    Company.update handle [] = Except.error (SqlError.invalidArgument "no data") :=
  ⟨rfl, rfl, rfl⟩

/-- C10: in `Job.update` and `Company.update`, for every non-empty data
mapping (whose resolved column names, coming from the caller's whitelisted
field set, contain no `$`), the WHERE-clause identifier placeholder is
numbered one greater than the builder's value-list length, the identifier
is the last element of the parameter array, and the total placeholder count
of the full UPDATE statement equals the length of the parameter array. -/
theorem c10_update_placeholder_alignment (id : Int) (handle : String)
    (data : List (String × Value)) (hne : data ≠ [])
    (hj : ∀ kv ∈ data, '$' ∉ (resolveCol [] kv.1).data)
    (hc : ∀ kv ∈ data, '$' ∉ (resolveCol companyAliases kv.1).data) :
    (∃ q : UpdateQuery, Job.update id data = Except.ok q ∧
      q.idVarIdx = "$" ++ Nat.repr (q.values.length + 1) ∧
      q.params = q.values ++ [Value.int id] ∧
      (placeholderNums q.querySql).length = q.params.length) ∧
    (∃ q : UpdateQuery, Company.update handle data = Except.ok q ∧
      q.idVarIdx = "$" ++ Nat.repr (q.values.length + 1) ∧
      q.params = q.values ++ [Value.str handle] ∧
      (placeholderNums q.querySql).length = q.params.length) := by
  have hlen : data.length ≠ 0 := fun h0 => hne (List.length_eq_zero.mp h0)
  refine ⟨⟨_, job_update_eq id data hlen, rfl, rfl, ?_⟩,
          ⟨_, company_update_eq handle data hlen, rfl, rfl, ?_⟩⟩
  · have hcount := update_statement_count [] data jobUpdatePrefix jobUpdateMid jobUpdateSuffix
      hj (by decide) (by decide) (by decide)
    simpa using hcount
  · have hcount := update_statement_count companyAliases data companyUpdatePrefix
      companyUpdateMid companyUpdateSuffix hc (by decide) (by decide) (by decide)
    simpa using hcount

/-- Witness for C10 at a concrete input. -/
theorem c10_witness :
    ([("title", Value.str "x"), ("salary", Value.int 5)] : List (String × Value)) ≠ [] ∧
    ((∃ q : UpdateQuery,
        Job.update 7 [("title", Value.str "x"), ("salary", Value.int 5)] = Except.ok q ∧
        q.idVarIdx = "$" ++ Nat.repr (q.values.length + 1) ∧
        q.params = q.values ++ [Value.int 7] ∧
        (placeholderNums q.querySql).length = q.params.length) ∧
      (∃ q : UpdateQuery,
        Company.update "c1" [("title", Value.str "x"), ("salary", Value.int 5)] = Except.ok q ∧
        q.idVarIdx = "$" ++ Nat.repr (q.values.length + 1) ∧
        q.params = q.values ++ [Value.str "c1"] ∧
        (placeholderNums q.querySql).length = q.params.length)) :=
  ⟨by decide,
   c10_update_placeholder_alignment 7 "c1" [("title", Value.str "x"), ("salary", Value.int 5)]
     (by decide) (by decide) (by decide)⟩

/-- C2 (amended): whenever `minEmployees > maxEmployees` (both present),
`Company.findAll` fails with a BadRequest error carrying a human-readable
message, and at the moment the error is raised no numeric-bound predicate
and no numeric bound value has been accumulated; however the `name`
predicate and its bound value (if `name` is truthy) have already been
appended, because the truthiness test on `name` precedes the min/max
validation in the code. -/
theorem c2_amended_minmax_validation (f : CompanyFilters)
    (h : jsGt f.minEmployees f.maxEmployees = true) :
    Company.findAll f = Except.error
      ⟨companyMinMaxMsg,
       if jsTruthyStr f.name then ["name ILIKE $1"] else [],
       if jsTruthyStr f.name then [Value.str ("%" ++ f.name.getD "" ++ "%")] else []⟩ := by
  cases hn : jsTruthyStr f.name
  all_goals simp [Company.findAll, Company.whereParts, hn, h]
  all_goals rfl

/-- Witness for the amended C2 at a concrete input. -/
theorem c2_amended_witness :
    jsGt (some 3) (some 1) = true ∧
    Company.findAll ⟨some "a", some 3, some 1⟩ = Except.error
      ⟨companyMinMaxMsg,
       if jsTruthyStr (some "a") then ["name ILIKE $1"] else [],
       if jsTruthyStr (some "a") then [Value.str ("%" ++ (some "a").getD "" ++ "%")] else []⟩ :=
  ⟨by decide, c2_amended_minmax_validation ⟨some "a", some 3, some 1⟩ (by decide)⟩

/-- C2 counterexample: with a truthy `name` filter and
`minEmployees > maxEmployees`, the BadRequest error is raised only after
the `name` predicate and its bound value have been accumulated
(`whereAtThrow` is not empty), refuting the claim that the validation runs
before any predicate is appended. -/
theorem c2_counterexample_name_predicate_precedes_validation :
    Company.findAll ⟨some "a", some 3, some 1⟩ = Except.error
      ⟨companyMinMaxMsg, ["name ILIKE $1"], [Value.str "%a%"]⟩ ∧
    (["name ILIKE $1"] : List String) ≠ [] ∧
    ([Value.str "%a%"] : List Value) ≠ [] := by
  refine ⟨by decide, by decide, by decide⟩

/-- C4: with every optional field absent the Composer returns the base
statement with no WHERE keyword and an empty value list, and the fixed
per-entity ordering clause is appended unconditionally after the optional
WHERE clause. -/
theorem c4_no_filters_base_and_unconditional_ordering :
    Job.findAll ⟨none, JSVal.undef, none⟩ = ⟨jobBaseQuery ++ " ORDER BY title", []⟩ ∧
    hasInfixL "WHERE".data (Job.findAll ⟨none, JSVal.undef, none⟩).statement.data = false ∧
    Company.findAll ⟨none, none, none⟩ = Except.ok ⟨companyBaseQuery ++ " ORDER BY name", []⟩ ∧
    hasInfixL "WHERE".data (companyBaseQuery ++ " ORDER BY name").data = false ∧
    (∀ f : JobFilters, ∃ w : String,
      (Job.findAll f).statement = w ++ " ORDER BY title" ∧
      (w = jobBaseQuery ∨ ∃ preds, preds ≠ [] ∧
        w = jobBaseQuery ++ " WHERE " ++ joinSep " AND " preds)) ∧
    (∀ (f : CompanyFilters) (q : ComposedQuery), Company.findAll f = Except.ok q →
      ∃ w : String,
        q.statement = w ++ " ORDER BY name" ∧
        (w = companyBaseQuery ∨ ∃ preds, preds ≠ [] ∧
          w = companyBaseQuery ++ " WHERE " ++ joinSep " AND " preds)) := by
  refine ⟨by decide, by decide, by decide, by decide, ?_, ?_⟩
  · intro f
    rcases hwp : Job.whereParts f with ⟨we, qv⟩
    by_cases hlen : we.length > 0
    · exact ⟨jobBaseQuery ++ " WHERE " ++ joinSep " AND " we,
        by simp [Job.findAll, hwp, hlen],
        Or.inr ⟨we, fun hnil => by simp [hnil] at hlen, rfl⟩⟩
    · exact ⟨jobBaseQuery, by simp [Job.findAll, hwp, hlen], Or.inl rfl⟩
  · intro f q h
    rcases hwp : Company.whereParts f with e | ⟨we, qv⟩
    · simp [Company.findAll, hwp] at h
    · simp only [Company.findAll, hwp] at h
      by_cases hlen : we.length > 0
      · refine ⟨companyBaseQuery ++ " WHERE " ++ joinSep " AND " we, ?_,
          Or.inr ⟨we, fun hnil => by simp [hnil] at hlen, rfl⟩⟩
        simp [hlen] at h
        rw [← h]
      · refine ⟨companyBaseQuery, ?_, Or.inl rfl⟩
        simp [hlen] at h
        rw [← h]

/-- Witness for C4 at a concrete input discharging the hypothesis of the
company conjunct. -/
theorem c4_witness :
    ∃ w : String,
      (ComposedQuery.mk (companyBaseQuery ++ " ORDER BY name") []).statement =
        w ++ " ORDER BY name" ∧
      (w = companyBaseQuery ∨ ∃ preds, preds ≠ [] ∧
        w = companyBaseQuery ++ " WHERE " ++ joinSep " AND " preds) :=
  c4_no_filters_base_and_unconditional_ordering.2.2.2.2.2
    ⟨none, none, none⟩ ⟨companyBaseQuery ++ " ORDER BY name", []⟩ (by decide)

theorem strictlyIncreasing_iff_chain :
    ∀ l : List Nat, strictlyIncreasing l = true ↔ List.Chain' (fun a b => a < b) l
  | [] => by simp [strictlyIncreasing]
  | [a] => by simp [strictlyIncreasing]
  | a :: b :: rest => by
    simp [strictlyIncreasing, List.chain'_cons, strictlyIncreasing_iff_chain (b :: rest)]

theorem job_whereParts_not_true (ms : Option Int) (t : Option String) (he : JSVal)
    (h : he ≠ JSVal.boolean true) :
    Job.whereParts ⟨ms, he, t⟩ = Job.whereParts ⟨ms, JSVal.undef, t⟩ := by
  rcases he with _ | b | es | en
  · rfl
  · cases b
    · rfl
    · exact absurd rfl h
  · rfl
  · rfl

/-- C1: for every combination of search criteria accepted by `Job.findAll`
and `Company.findAll`, the number of positional placeholders in the
composed statement equals the length of the value list, and the
placeholder numbers are strictly increasing in predicate order. -/
theorem c1_placeholder_value_alignment :
    (∀ f : JobFilters,
      (placeholderNums (Job.findAll f).statement).length = (Job.findAll f).values.length ∧
      List.Chain' (fun a b => a < b) (placeholderNums (Job.findAll f).statement)) ∧
    (∀ (f : CompanyFilters) (q : ComposedQuery), Company.findAll f = Except.ok q →
      (placeholderNums q.statement).length = q.values.length ∧
      List.Chain' (fun a b => a < b) (placeholderNums q.statement)) := by
  constructor
  · intro f
    rcases f with ⟨ms, he, t⟩
    rcases ms with _ | m <;> rcases t with _ | s <;> rcases he with _ | b | es | en <;>
      try cases b
    all_goals constructor
    all_goals simp [Job.findAll, Job.whereParts]
    all_goals first
      | decide
      | exact (strictlyIncreasing_iff_chain _).mp (by decide)
  · intro f q h
    rcases f with ⟨name, mn, mx⟩
    rcases name with _ | s <;> rcases mn with _ | m <;> rcases mx with _ | M
    all_goals try by_cases hs : s = ""
    all_goals try subst hs
    all_goals try by_cases hm : m > M
    all_goals simp [Company.findAll, Company.whereParts, jsTruthyStr, jsGt, *] at h
    all_goals try subst h
    all_goals constructor
    all_goals simp
    all_goals first
      | decide
      | exact (strictlyIncreasing_iff_chain _).mp (by decide)

/-- Witness for C1, discharging the hypothesis of the company conjunct at a
concrete input. -/
theorem c1_witness :
    (placeholderNums (ComposedQuery.mk (companyBaseQuery ++ " ORDER BY name") []).statement).length
      = (ComposedQuery.mk (companyBaseQuery ++ " ORDER BY name") []).values.length ∧
    List.Chain' (fun a b => a < b)
      (placeholderNums (ComposedQuery.mk (companyBaseQuery ++ " ORDER BY name") []).statement) :=
  c1_placeholder_value_alignment.2 ⟨none, none, none⟩
    ⟨companyBaseQuery ++ " ORDER BY name", []⟩ (by decide)

/-- C9: in `Job.findAll` the equity predicate is added only when
`hasEquity` is strictly the boolean `true`; every other value, including
truthy non-boolean values such as the string "true" or the number 1,
behaves identically to the absent case. -/
theorem c9_hasEquity_strict_equality (f : JobFilters) (h : f.hasEquity ≠ JSVal.boolean true) :
    Job.whereParts f = Job.whereParts ⟨f.minSalary, JSVal.undef, f.title⟩ ∧
    Job.findAll f = Job.findAll ⟨f.minSalary, JSVal.undef, f.title⟩ := by
  rcases f with ⟨ms, he, t⟩
  have h1 := job_whereParts_not_true ms t he h
  exact ⟨h1, by simp [Job.findAll, h1]⟩

/-- Witness for C9 at the truthy non-boolean inputs named by the claim. -/
theorem c9_witness :
    (JSVal.string "true" ≠ JSVal.boolean true ∧
      Job.whereParts ⟨some 1, JSVal.string "true", none⟩ =
        Job.whereParts ⟨some 1, JSVal.undef, none⟩) ∧
    (JSVal.number 1 ≠ JSVal.boolean true ∧
      Job.whereParts ⟨some 1, JSVal.number 1, none⟩ =
        Job.whereParts ⟨some 1, JSVal.undef, none⟩) :=
  ⟨⟨by decide,
    (c9_hasEquity_strict_equality ⟨some 1, JSVal.string "true", none⟩ (by decide)).1⟩,
   ⟨by decide,
    (c9_hasEquity_strict_equality ⟨some 1, JSVal.number 1, none⟩ (by decide)).1⟩⟩

/-- C6: if `hasEquity` is `true`, `Job.findAll` appends the fixed predicate
"equity > 0" and the value list gains no element for it; if `hasEquity` is
absent or `false`, no equity predicate is appended and `hasEquity` never
appears as a bound parameter. -/
theorem c6_hasEquity_fixed_predicate (ms : Option Int) (t : Option String) (he : JSVal) :
    (Job.whereParts ⟨ms, JSVal.boolean true, t⟩).1 =
      (Job.whereParts ⟨ms, JSVal.undef, t⟩).1 ++ ["equity > 0"] ∧
    (Job.whereParts ⟨ms, JSVal.boolean true, t⟩).2 =
      (Job.whereParts ⟨ms, JSVal.undef, t⟩).2 ∧
    (he = JSVal.undef ∨ he = JSVal.boolean false →
      Job.whereParts ⟨ms, he, t⟩ = Job.whereParts ⟨ms, JSVal.undef, t⟩ ∧
      "equity > 0" ∉ (Job.whereParts ⟨ms, he, t⟩).1) := by
  refine ⟨?_, ?_, ?_⟩
  · rcases ms with _ | m <;> rcases t with _ | s <;> rfl
  · rcases ms with _ | m <;> rcases t with _ | s <;> rfl
  · intro hor
    have hne : he ≠ JSVal.boolean true := by
      rcases hor with h1 | h1 <;> subst h1 <;> decide
    have heq := job_whereParts_not_true ms t he hne
    refine ⟨heq, ?_⟩
    rw [heq]
    rcases ms with _ | m <;> rcases t with _ | s <;> exact of_decide_eq_true rfl

/-- Witness for C6 discharging the absent-or-false hypothesis at `false`. -/
theorem c6_witness :
    (JSVal.boolean false = JSVal.undef ∨ JSVal.boolean false = JSVal.boolean false) ∧
    (Job.whereParts ⟨some 50000, JSVal.boolean false, none⟩ =
        Job.whereParts ⟨some 50000, JSVal.undef, none⟩ ∧
      "equity > 0" ∉ (Job.whereParts ⟨some 50000, JSVal.boolean false, none⟩).1) :=
  ⟨Or.inr rfl,
   (c6_hasEquity_fixed_predicate (some 50000) none (JSVal.boolean false)).2.2 (Or.inr rfl)⟩

/-- C8: `Company.findAll` tests the `name` criterion by JavaScript
truthiness, not definedness: an empty-string name appends no predicate and
binds no value (identically to the absent case), whereas `Job.findAll`
tests `title !== undefined` and does append `title ILIKE` with the wrapped
empty string "%%" bound for an empty-string title. -/
theorem c8_truthiness_vs_definedness (mn mx : Option Int) (ms : Option Int) (he : JSVal) :
    Company.whereParts ⟨some "", mn, mx⟩ = Company.whereParts ⟨none, mn, mx⟩ ∧
    Company.findAll ⟨some "", mn, mx⟩ = Company.findAll ⟨none, mn, mx⟩ ∧
    (Job.whereParts ⟨ms, he, some ""⟩).1.head? = some "title ILIKE $1" ∧
    (Job.whereParts ⟨ms, he, some ""⟩).2.head? = some (Value.str "%%") := by
  refine ⟨rfl, rfl, ?_, ?_⟩ <;>
    (rcases ms with _ | m <;> rcases he with _ | b | es | en <;> try cases b) <;>
      exact of_decide_eq_true rfl

theorem setFragments_eq_zipWith (jsToSql : List (String × String)) :
    ∀ (i : Nat) (data : List (String × Value)),
      setFragments jsToSql i data =
        (setColumns jsToSql data).zipWith (fun col n => col ++ " = $" ++ Nat.repr n)
          (List.range' (i + 1) data.length) := by
  intro i data
  induction data generalizing i with
  | nil => rfl
  | cons kv rest ih =>
    show (resolveCol jsToSql kv.1 ++ " = $" ++ Nat.repr (i + 1)) ::
        setFragments jsToSql (i + 1) rest = _
    rw [ih (i + 1)]
    rfl

theorem lookup_zip_eq_none (c : String) :
    ∀ (cols : List String) (vs : List Value), c ∉ cols → (cols.zip vs).lookup c = none := by
  intro cols
  induction cols with
  | nil => intro vs _; rfl
  | cons a rest ih =>
    intro vs hc
    cases vs with
    | nil => rfl
    | cons v vs2 =>
      have hca : (c == a) = false := by
        simp only [beq_eq_false_iff_ne, ne_eq]
        exact fun hh => hc (by simp [hh])
      simp only [List.zip, List.zipWith, List.lookup, hca]
      simpa [List.zip] using ih vs2 (fun hm => hc (by simp [hm]))

/-- C7: for every non-empty update mapping, the builder's SET clause
mentions exactly the columns corresponding to the supplied keys (in order,
with consecutive placeholders), so under the modelled row-update semantics
every column of the row not named in the mapping keeps its previous value. -/
theorem c7_partial_update_frame (jsToSql : List (String × String))
    (data : List (String × Value)) (row : String → Value) (c : String)
    (hne : data ≠ []) (hc : c ∉ setColumns jsToSql data) :
    sqlForPartialUpdate data jsToSql =
      Except.ok ⟨joinSep ", " (setFragments jsToSql 0 data), data.map fun kv => kv.2⟩ ∧
    setFragments jsToSql 0 data =
      (setColumns jsToSql data).zipWith (fun col n => col ++ " = $" ++ Nat.repr n)
        (List.range' 1 data.length) ∧
    applyAssignments row ((setColumns jsToSql data).zip (data.map fun kv => kv.2)) c = row c := by
  have hlen : data.length ≠ 0 := fun h0 => hne (List.length_eq_zero.mp h0)
  refine ⟨by simp [sqlForPartialUpdate, hlen], setFragments_eq_zipWith jsToSql 0 data, ?_⟩
  simp [applyAssignments, lookup_zip_eq_none c _ _ hc]

/-- Witness for C7 at a concrete input: updating only `title` leaves the
`salary` column of the row untouched. -/
theorem c7_witness :
    (([("title", Value.str "x")] : List (String × Value)) ≠ []) ∧
    ("salary" ∉ setColumns [] [("title", Value.str "x")]) ∧
    (sqlForPartialUpdate [("title", Value.str "x")] [] =
      Except.ok ⟨joinSep ", " (setFragments [] 0 [("title", Value.str "x")]),
        [("title", Value.str "x")].map fun kv => kv.2⟩ ∧
    setFragments [] 0 [("title", Value.str "x")] =
      (setColumns [] [("title", Value.str "x")]).zipWith
        (fun col n => col ++ " = $" ++ Nat.repr n)
        (List.range' 1 [("title", Value.str "x")].length) ∧
    applyAssignments (fun _ => Value.int 0)
      ((setColumns [] [("title", Value.str "x")]).zip
        ([("title", Value.str "x")].map fun kv => kv.2)) "salary" =
      (fun _ => Value.int 0) "salary") :=
  ⟨by decide, by decide,
   c7_partial_update_frame [] [("title", Value.str "x")] (fun _ => Value.int 0) "salary"
     (by decide) (by decide)⟩

/-- C5 (amended): when the text-match criterion is present, the Composer
appends exactly one case-insensitive partial-match predicate
`column ILIKE $n` binding the value wrapped in `%` wildcards by the
composer itself — unconditionally so for `Job.findAll` (`title` tested
against `undefined`), but for `Company.findAll` only when `name` is truthy
(non-empty); a present empty-string `name` appends no predicate. -/
theorem c5_amended_single_ilike_predicate :
    (∀ (ms : Option Int) (he : JSVal) (t : String),
      ((Job.whereParts ⟨ms, he, some t⟩).1.countP
          fun x => hasInfixL "ILIKE".data x.data) = 1 ∧
      (Job.whereParts ⟨ms, he, some t⟩).1.head? = some "title ILIKE $1" ∧
      (Job.whereParts ⟨ms, he, some t⟩).2.head? = some (Value.str ("%" ++ t ++ "%"))) ∧
    (∀ (s : String) (mn mx : Option Int) (we : List String) (qv : List Value),
      s ≠ "" →
      Company.whereParts ⟨some s, mn, mx⟩ = Except.ok (we, qv) →
      (we.countP fun x => hasInfixL "ILIKE".data x.data) = 1 ∧
      we.head? = some "name ILIKE $1" ∧
      qv.head? = some (Value.str ("%" ++ s ++ "%"))) ∧
    Company.whereParts ⟨some "", none, none⟩ = Except.ok ([], []) := by
  refine ⟨?_, ?_, rfl⟩
  · intro ms he t
    rcases ms with _ | m <;> rcases he with _ | b | es | en <;> try cases b
    all_goals refine ⟨?_, ?_, ?_⟩
    all_goals simp [Job.whereParts]
    all_goals try decide
  · intro s mn mx we qv hs h
    rcases mn with _ | m <;> rcases mx with _ | M
    all_goals try by_cases hm : m > M
    all_goals simp [Company.whereParts, jsTruthyStr, jsGt, *] at h
    all_goals obtain ⟨h1, h2⟩ := h
    all_goals subst h1
    all_goals subst h2
    all_goals refine ⟨?_, ?_, ?_⟩
    all_goals simp
    all_goals try decide

/-- Witness for the amended C5, discharging its hypotheses at a concrete
company input. -/
theorem c5_amended_witness :
    ("net" : String) ≠ "" ∧
    Company.whereParts ⟨some "net", none, none⟩ =
      Except.ok (["name ILIKE $1"], [Value.str "%net%"]) ∧
    (((["name ILIKE $1"] : List String).countP
        fun x => hasInfixL "ILIKE".data x.data) = 1 ∧
      (["name ILIKE $1"] : List String).head? = some "name ILIKE $1" ∧
      ([Value.str "%net%"] : List Value).head? = some (Value.str ("%" ++ "net" ++ "%"))) :=
  ⟨by decide, by decide,
   c5_amended_single_ilike_predicate.2.1 "net" none none ["name ILIKE $1"] [Value.str "%net%"]
     (by decide) (by decide)⟩

/-- C5 counterexample: for `Company.findAll` the text-match criterion can
be present (the empty string, which is not undefined/absent) while no
ILIKE predicate is appended and no value is bound, refuting the claim as
stated for every present criterion. -/
theorem c5_counterexample_present_empty_name :
    (some "" ≠ (none : Option String)) ∧
    Company.whereParts ⟨some "", none, none⟩ = Except.ok ([], []) ∧
    Company.findAll ⟨some "", none, none⟩ =
      Except.ok ⟨companyBaseQuery ++ " ORDER BY name", []⟩ :=
  ⟨by decide, rfl, by decide⟩
